import Mathlib

/-!
Verification development for the `oauthpersist` Go package (file `storage.go`).

The package persists OAuth2 tokens.  It offers two storage backends:
`FileTokenStorage` (one csv record per file, the expiry serialized with Go's
`time.Time.String()` layout `2006-01-02 15:04:05.999999999 -0700 MST` and read
back with `time.Parse` on the same layout) and `SQLTokenStorage` (one row per
identifier in a table `oauth2_tokens`).  `Config.Exchange` and
`TokenStorageSource.Token` intercept token acquisition and persist the result
before returning it.

The shallow embedding below mirrors `storage.go`:
* `GoVal`/`fmtSprint` model the `interface{}` identifiers and `fmt.Sprint`;
* `GoTime`, `goTimeString`, `goTimeParse` model `time.Time`, its `String()`
  for the fixed layout above, and `time.Parse` of that layout (including
  Go's optional fraction with trailing-zero trimming, lenient 1-2 digit hour,
  numeric `-0700` offsets and `parseTimeZone` zone-abbreviation rules);
* the file system is a map from file names to the single csv record the file
  holds (the csv encoding itself is Go library code, abstracted as the field
  list it transports); `path.Join` is modelled as `/`-concatenation, which is
  exact for the clean relative paths the package builds;
* the SQL database is a map from identifier to row plus an auto-increment
  counter; each operation also reports the list of statements it executed,
  and store/exec failures of the driver are supplied as oracle arguments.
-/

namespace Oauthpersist

/-- Model of a Go `interface{}` value used as a token identifier. -/
inductive GoVal where
  | str : String → GoVal
  | int : Int → GoVal
deriving DecidableEq

/-- Stringification of a single non-nil value, as `fmt.Sprint` produces it. -/
def GoVal.sprint : GoVal → String
  | .str s => s
  | .int n => toString n

/-- Model of `fmt.Sprint` applied to a possibly-nil `interface{}` field
(`fmt.Sprint(nil)` prints `<nil>`). -/
def fmtSprint : Option GoVal → String
  | none => "<nil>"
  | some v => v.sprint

/-- The error values the modelled code can return: `errors.New`/`fmt.Errorf`
messages, `os` path errors, `time.Parse` errors, and `sql.ErrNoRows`. -/
inductive GoError where
  | errorsNew (msg : String)
  | pathError (op : String) (path : String)
  | timeParseError (value : String)
  | sqlErrNoRows
deriving DecidableEq

/-- The wall-clock data of a Go `time.Time` as seen by `String()` and
`Parse` for the layout `2006-01-02 15:04:05.999999999 -0700 MST`:
date, time of day, nanoseconds, the zone offset as printed (`±hhmm`) and the
zone abbreviation. -/
structure GoTime where
  year : Nat
  month : Nat
  day : Nat
  hour : Nat
  minute : Nat
  second : Nat
  nsec : Nat
  offNeg : Bool
  offH : Nat
  offM : Nat
  zone : String
deriving DecidableEq

/-- The persisted token shape: the four fields of `oauth2.Token` that
`storage.go` reads and writes. -/
structure Token where
  AccessToken : String
  RefreshToken : String
  Expiry : GoTime
  TokenType : String
deriving DecidableEq

/-! ## Digit formatting and scanning (Go `appendInt` / `getnum` / `atoi`) -/

/-- The ascii digit character for `d` (Go appends the byte `'0' + d`). -/
def digCh (d : Nat) : Char := Char.ofNat (48 + d)

/-- Numeric value of an ascii digit character. -/
def digVal (c : Char) : Nat := c.toNat - 48

/-- Go's `isDigit`. -/
def isDig (c : Char) : Bool := 48 ≤ c.toNat && c.toNat ≤ 57

/-- Zero-padded fixed-width decimal digits of `n`, most significant first. -/
def padDigits : Nat → Nat → List Char
  | 0, _ => []
  | w + 1, n => digCh (n / 10 ^ w) :: padDigits w (n % 10 ^ w)

/-- Scan exactly `w` digit characters, accumulating their value (Go's
`getnum`/`atoi` on a fixed-width field). -/
def readFixed : Nat → Nat → List Char → Option (Nat × List Char)
  | 0, acc, cs => some (acc, cs)
  | w + 1, acc, cs =>
    match cs with
    | [] => none
    | c :: cs' => if isDig c then readFixed w (acc * 10 + digVal c) cs' else none

/-- Scan one or two digit characters (Go's `getnum` with `fixed = false`,
used for the `15` hour field). -/
def readNum2Lenient : List Char → Option (Nat × List Char)
  | [] => none
  | c :: cs =>
    if isDig c then
      match cs with
      | c2 :: cs2 =>
        if isDig c2 then some (digVal c * 10 + digVal c2, cs2) else some (digVal c, cs)
      | [] => some (digVal c, [])
    else none

/-- Require the next character to be the literal `c`. -/
def expectChar (c : Char) : List Char → Option (List Char)
  | [] => none
  | x :: xs => if x = c then some xs else none

/-- Value of a digit-character string, most significant first. -/
def valOfDigits (l : List Char) : Nat := l.foldl (fun a c => a * 10 + digVal c) 0

/-- Remove trailing `'0'` characters (Go trims the fraction printed for the
`.999999999` layout verb). -/
def dropTrailingZeroChars (l : List Char) : List Char :=
  (l.reverse.dropWhile (fun c => c == '0')).reverse

/-- The fractional-second characters `Time.String()` prints: nothing when the
nanoseconds are zero, otherwise a dot and the 9-digit nanosecond field with
trailing zeros trimmed. -/
def fracChars (nsec : Nat) : List Char :=
  if nsec = 0 then [] else '.' :: dropTrailingZeroChars (padDigits 9 nsec)

/-- The exact character sequence of Go `time.Time.String()` for a time
without monotonic reading: layout `2006-01-02 15:04:05.999999999 -0700 MST`. -/
def goTimeChars (t : GoTime) : List Char :=
  padDigits 4 t.year ++ ['-'] ++ padDigits 2 t.month ++ ['-'] ++ padDigits 2 t.day
    ++ [' '] ++ padDigits 2 t.hour ++ [':'] ++ padDigits 2 t.minute ++ [':']
    ++ padDigits 2 t.second ++ fracChars t.nsec ++ [' ']
    ++ [if t.offNeg then '-' else '+'] ++ padDigits 2 t.offH ++ padDigits 2 t.offM
    ++ [' '] ++ t.zone.toList

/-- Go `time.Time.String()` for the fixed layout, as a string. -/
def goTimeString (t : GoTime) : String := String.mk (goTimeChars t)

/-! ## Parsing (Go `time.Parse` specialised to the layout above) -/

/-- Parse the optional fractional second (layout verb `.999999999`): taken
only when a dot directly followed by a digit is present; at most nine digits;
the value is scaled to nanoseconds. -/
def parseFrac (cs : List Char) : Option (Nat × List Char) :=
  match cs with
  | '.' :: rest =>
    match rest with
    | c :: _ =>
      if isDig c then
        let ds := rest.takeWhile isDig
        if ds.length ≤ 9 then
          some (valOfDigits ds * 10 ^ (9 - ds.length), rest.dropWhile isDig)
        else none
      else some (0, cs)
    | [] => some (0, cs)
  | _ => some (0, cs)

/-- Parse the sign of a numeric zone offset. -/
def parseSign : List Char → Option (Bool × List Char)
  | c :: cs =>
    if c = '-' then some (true, cs)
    else if c = '+' then some (false, cs)
    else none
  | [] => none

/-- Uppercase ascii letter test. -/
def isUpper (c : Char) : Bool := 65 ≤ c.toNat && c.toNat ≤ 90

/-- Go's `parseSignedOffset`: a sign, then a bounded decimal hour; the number
of characters consumed, `0` on failure. -/
def parseSignedOffsetLen (cs : List Char) : Nat :=
  match cs with
  | c :: rest =>
    if c = '+' ∨ c = '-' then
      let ds := rest.takeWhile isDig
      if ds.length = 0 then 0
      else if valOfDigits ds ≤ 23 then 1 + ds.length else 0
    else 0
  | [] => 0

/-- Go's `parseTimeZone`: how many characters of `cs` form a zone
abbreviation (`ChST`/`MeST`, `GMT` with optional signed hour, a signed
offset, or a three-to-five uppercase-letter run whose fourth or fifth letter
is constrained to `T`, with `WITA` special-cased). -/
def parseTimeZoneLen (cs : List Char) : Option Nat :=
  if cs.length < 3 then none
  else if cs.take 4 = ['C', 'h', 'S', 'T'] ∨ cs.take 4 = ['M', 'e', 'S', 'T'] then some 4
  else if cs.take 3 = ['G', 'M', 'T'] then some (3 + parseSignedOffsetLen (cs.drop 3))
  else if cs.take 1 = ['+'] ∨ cs.take 1 = ['-'] then
    (if parseSignedOffsetLen cs = 0 then none else some (parseSignedOffsetLen cs))
  else
    match (cs.takeWhile isUpper).length with
    | 3 => some 3
    | 4 => if cs.get? 3 = some 'T' ∨ cs.take 4 = ['W', 'I', 'T', 'A'] then some 4 else none
    | 5 => if cs.get? 4 = some 'T' then some 5 else none
    | _ => none

/-- Go's parse of the `MST` layout verb: `UTC` is recognised directly,
otherwise `parseTimeZone` decides how many characters form the zone name. -/
def parseZone (cs : List Char) : Option (String × List Char) :=
  if cs.take 3 = ['U', 'T', 'C'] then some (String.mk (cs.take 3), cs.drop 3)
  else
    match parseTimeZoneLen cs with
    | none => none
    | some n => some (String.mk (cs.take n), cs.drop n)

/-- Go's leap-year rule. -/
def isLeap (y : Nat) : Bool := y % 4 == 0 && (y % 100 != 0 || y % 400 == 0)

/-- Days in a month, as Go's `daysIn`. -/
def daysIn (m y : Nat) : Nat :=
  if m = 2 then (if isLeap y then 29 else 28)
  else if m = 4 ∨ m = 6 ∨ m = 9 ∨ m = 11 then 30
  else 31

/-- Parse of the `2006-01-02` prefix of the layout: fixed-width year, month
and day with the month range check. -/
def parseYMD (cs : List Char) : Option (Nat × Nat × Nat × List Char) :=
  (readFixed 4 0 cs).bind fun (year, cs) =>
  (expectChar '-' cs).bind fun cs =>
  (readFixed 2 0 cs).bind fun (month, cs) =>
  if month < 1 ∨ 12 < month then none else
  (expectChar '-' cs).bind fun cs =>
  (readFixed 2 0 cs).bind fun (day, cs) =>
  some (year, month, day, cs)

/-- Parse of the ` 15:04:05` section of the layout: lenient one-or-two digit
hour, fixed-width minute and second, with the range checks Go performs. -/
def parseHMS (cs : List Char) : Option (Nat × Nat × Nat × List Char) :=
  (expectChar ' ' cs).bind fun cs =>
  (readNum2Lenient cs).bind fun (hour, cs) =>
  if 23 < hour then none else
  (expectChar ':' cs).bind fun cs =>
  (readFixed 2 0 cs).bind fun (minute, cs) =>
  if 59 < minute then none else
  (expectChar ':' cs).bind fun cs =>
  (readFixed 2 0 cs).bind fun (second, cs) =>
  if 59 < second then none else
  some (hour, minute, second, cs)

/-- Parse of the ` -0700 MST` suffix of the layout: signed four-digit offset
and the zone abbreviation. -/
def parseOffsetZone (cs : List Char) : Option (Bool × Nat × Nat × String × List Char) :=
  (expectChar ' ' cs).bind fun cs =>
  (parseSign cs).bind fun (offNeg, cs) =>
  (readFixed 2 0 cs).bind fun (offH, cs) =>
  (readFixed 2 0 cs).bind fun (offM, cs) =>
  (expectChar ' ' cs).bind fun cs =>
  (parseZone cs).bind fun (zone, cs) =>
  some (offNeg, offH, offM, zone, cs)

/-- Go `time.Parse` specialised to the layout
`2006-01-02 15:04:05.999999999 -0700 MST`, on the character list: the date,
the clock, the optional fraction, offset and zone, no text after the layout,
and the final day-of-month validation. -/
def goTimeParseChars (cs : List Char) : Option GoTime :=
  (parseYMD cs).bind fun (year, month, day, cs) =>
  (parseHMS cs).bind fun (hour, minute, second, cs) =>
  (parseFrac cs).bind fun (nsec, cs) =>
  (parseOffsetZone cs).bind fun (offNeg, offH, offM, zone, cs) =>
  if cs = [] then
    if day < 1 ∨ daysIn month year < day then none
    else some { year := year, month := month, day := day, hour := hour, minute := minute,
                second := second, nsec := nsec, offNeg := offNeg, offH := offH, offM := offM,
                zone := zone }
  else none

/-- Go `time.Parse` for the fixed layout, on strings, with the parse error. -/
def goTimeParse (s : String) : Except GoError GoTime :=
  match goTimeParseChars s.toList with
  | some t => .ok t
  | none => .error (.timeParseError s)

/-- Whether `parseZone` consumes a character list in its entirety (so a zone
abbreviation followed by nothing, as `Time.String()` prints it). -/
def zoneConsumesAll (cs : List Char) : Bool :=
  if cs.take 3 = ['U', 'T', 'C'] then cs.length == 3
  else
    match parseTimeZoneLen cs with
    | some n => n == cs.length
    | none => false

/-- The values of `GoTime` that represent a well-formed Go `time.Time` as
printed by `String()`: calendar fields in range, nanoseconds below one
second, a printable two-digit offset, and a zone abbreviation that `Parse`
recognises. -/
def ValidGoTime (t : GoTime) : Prop :=
  t.year < 10000 ∧ 1 ≤ t.month ∧ t.month ≤ 12 ∧ 1 ≤ t.day ∧ t.day ≤ daysIn t.month t.year ∧
  t.hour ≤ 23 ∧ t.minute ≤ 59 ∧ t.second ≤ 59 ∧ t.nsec < 1000000000 ∧
  t.offH ≤ 99 ∧ t.offM ≤ 99 ∧ zoneConsumesAll t.zone.toList = true

instance (t : GoTime) : Decidable (ValidGoTime t) := by
  unfold ValidGoTime; infer_instance

/-! ## The file backend (`FileTokenStorage`) -/

/-- The file system, as the backend observes it: each file name maps to the
one csv record (field list) the file holds, or to nothing when absent.  The
csv encoding itself is Go library code and is abstracted as the field list it
transports. -/
def FS : Type := String → Option (List String)

/-- Model of Go `path.Join` for the clean relative components the package
builds. -/
def pathJoin (dir file : String) : String := dir ++ "/" ++ file

/-- `FileTokenStorage` stores tokens in csv files: a folder path and a token
identifier (`interface{}`, usually a user id, possibly nil). -/
structure FileTokenStorage where
  StoragePath : String
  TokenId : Option GoVal
deriving DecidableEq

/-- The file a given configuration reads and writes:
`path.Join(store.StoragePath, fmt.Sprint(store.TokenId) + ".csv")`. -/
def FileTokenStorage.filename (store : FileTokenStorage) : String :=
  pathJoin store.StoragePath (fmtSprint store.TokenId ++ ".csv")

/-- `FileTokenStorage.StoreToken` saves a token as a csv file: configuration
checks in source order, then the file is created (truncating any previous
content) with the single record
`[AccessToken, RefreshToken, Expiry.String(), TokenType]`. -/
def FileTokenStorage.StoreToken (store : FileTokenStorage) (fs : FS) (token : Token) :
    Except GoError Unit × FS :=
  if store.StoragePath = "" then
    (.error (.errorsNew "Cannot store token: StoragePath not set."), fs)
  else
    let tokenIdStr := fmtSprint store.TokenId
    if store.TokenId = none ∨ tokenIdStr = "" then
      (.error (.errorsNew "Cannot store token: TokenId not set."), fs)
    else
      let filename := pathJoin store.StoragePath (tokenIdStr ++ ".csv")
      let record := [token.AccessToken, token.RefreshToken, goTimeString token.Expiry,
                     token.TokenType]
      (.ok (), fun f => if f = filename then some record else fs f)

/-- `FileTokenStorage.RestoreToken` returns an `oauth2.Token` from a file:
configuration checks in source order, `os.Open`, one csv record read, the
four-field check, and `time.Parse` of the third field. -/
def FileTokenStorage.RestoreToken (store : FileTokenStorage) (fs : FS) :
    Except GoError Token :=
  if store.StoragePath = "" then
    .error (.errorsNew "Cannot restore token: StoragePath not set.")
  else
    let tokenIdStr := fmtSprint store.TokenId
    if store.TokenId = none ∨ tokenIdStr = "" then
      .error (.errorsNew "Cannot restore token: TokenId not set.")
    else
      let filename := pathJoin store.StoragePath (tokenIdStr ++ ".csv")
      match fs filename with
      | none => .error (.pathError "open" filename)
      | some record =>
        if record.length < 4 then
          .error (.errorsNew "Cannot restore token: File does not contain all fields.")
        else
          match goTimeParse (record.getD 2 "") with
          | .error e => .error e
          | .ok expiry =>
            .ok { AccessToken := record.getD 0 "", RefreshToken := record.getD 1 "",
                  Expiry := expiry, TokenType := record.getD 3 "" }

/-- `FileTokenStorage.DeleteToken` removes the token file: configuration
checks in source order, then `os.Remove`, which fails when the file is
absent. -/
def FileTokenStorage.DeleteToken (store : FileTokenStorage) (fs : FS) :
    Except GoError Unit × FS :=
  if store.StoragePath = "" then
    (.error (.errorsNew "Cannot delete token: StoragePath not set."), fs)
  else
    let tokenIdStr := fmtSprint store.TokenId
    if store.TokenId = none ∨ tokenIdStr = "" then
      (.error (.errorsNew "Cannot delete token: TokenId not set."), fs)
    else
      let filename := pathJoin store.StoragePath (tokenIdStr ++ ".csv")
      match fs filename with
      | none => (.error (.pathError "remove" filename), fs)
      | some _ => (.ok (), fun f => if f = filename then none else fs f)

/-! ## The interception layer (`Config.Exchange`, `TokenStorageSource.Token`)

Both wrappers delegate to an external collaborator (the OAuth2 client's
exchange, respectively the wrapped token source) and to the configured
`TokenStorage`.  The collaborator's outcome is an argument, and the storage
is an arbitrary stateful `StoreToken` function over an arbitrary state type,
so the theorems quantify over every possible backend behaviour. -/

/-- `Config.Exchange` wraps `oauth2.Config.Exchange`: on a successful
exchange it calls `Storage.StoreToken` with the obtained token; an error
from either step is returned with no token. -/
def Config.Exchange {σ : Type} (exchange : Except GoError Token)
    (storeToken : Token → σ → Except GoError Unit × σ) (s : σ) :
    Except GoError Token × σ :=
  match exchange with
  | .error e => (.error e, s)
  | .ok token =>
    match storeToken token s with
    | (.error e, s') => (.error e, s')
    | (.ok _, s') => (.ok token, s')

/-- `TokenStorageSource.Token` calls the wrapped source's `Token` and, on
success, persists the result via `Storage.StoreToken` before returning it;
an error from either step is returned with no token. -/
def TokenStorageSource.Token {σ : Type} (sourceToken : Except GoError Token)
    (storeToken : Token → σ → Except GoError Unit × σ) (s : σ) :
    Except GoError Token × σ :=
  match sourceToken with
  | .error e => (.error e, s)
  | .ok token =>
    match storeToken token s with
    | (.error e, s') => (.error e, s')
    | (.ok _, s') => (.ok token, s')

/-! ## The SQL backend (`SQLTokenStorage`) -/

/-- The statements `SQLTokenStorage` can run against the database, keyed by
their semantic content (`INSERT`, `INSERT OR REPLACE`, `SELECT`, `DELETE` on
the `oauth2_tokens` table). -/
inductive SQLOp where
  | insertAutoId
  | insertOrReplace (id : GoVal)
  | selectById (id : GoVal)
  | deleteById (id : GoVal)
deriving DecidableEq

/-- The `oauth2_tokens` table: rows keyed by identifier, holding the four
token fields, plus the auto-increment counter for generated identifiers. -/
structure SQLDB where
  nextId : Int
  rows : GoVal → Option Token

/-- `SQLTokenStorage` holds a database handle and the token identifier
(`interface{}`; nil means auto-generation on store).  The database state is
passed alongside. -/
structure SQLTokenStorage where
  ID : Option GoVal
deriving DecidableEq

/-- Result of `SQLTokenStorage.StoreToken`: the Go return value, the updated
receiver (its `ID` may have been written), the updated database, and the
statements executed. -/
structure SQLStoreResult where
  result : Except GoError Unit
  store : SQLTokenStorage
  db : SQLDB
  ops : List SQLOp

/-- `SQLTokenStorage.StoreToken`: with nil `ID` it runs the plain `INSERT`
of the four token fields and, on success, writes `res.LastInsertId()` into
`store.ID`; with `ID` set it runs the single `INSERT OR REPLACE` keyed by
`ID`.  Driver failures of `Exec` and of `LastInsertId` are supplied as
oracle arguments (`none` meaning success). -/
def SQLTokenStorage.StoreToken (store : SQLTokenStorage) (db : SQLDB)
    (execErr lastInsertIdErr : Option GoError) (token : Token) : SQLStoreResult :=
  match store.ID with
  | none =>
    match execErr with
    | some e => ⟨.error e, store, db, [.insertAutoId]⟩
    | none =>
      let newId : GoVal := .int db.nextId
      let db' : SQLDB := ⟨db.nextId + 1, fun k => if k = newId then some token else db.rows k⟩
      match lastInsertIdErr with
      | some e => ⟨.error e, store, db', [.insertAutoId]⟩
      | none => ⟨.ok (), ⟨some newId⟩, db', [.insertAutoId]⟩
  | some id =>
    match execErr with
    | some e => ⟨.error e, store, db, [.insertOrReplace id]⟩
    | none =>
      ⟨.ok (), store, ⟨db.nextId, fun k => if k = id then some token else db.rows k⟩,
        [.insertOrReplace id]⟩

/-- `SQLTokenStorage.RestoreToken`: with nil `ID` it fails before touching
the database; otherwise it runs the single `SELECT ... WHERE id = $1` and
scans the row, `sql.ErrNoRows` when none matches.  The returned list records
the statements executed. -/
def SQLTokenStorage.RestoreToken (store : SQLTokenStorage) (db : SQLDB) :
    Except GoError Token × List SQLOp :=
  match store.ID with
  | none =>
    (.error (.errorsNew
      "SQLTokenStorage.RestoreToken requires the SQLTokenStorage.TokenID to be set."), [])
  | some id =>
    match db.rows id with
    | none => (.error .sqlErrNoRows, [.selectById id])
    | some t => (.ok t, [.selectById id])

/-- `SQLTokenStorage.DeleteToken`: with nil `ID` it fails before touching
the database; otherwise it runs the single `DELETE ... WHERE id = $1`. -/
def SQLTokenStorage.DeleteToken (store : SQLTokenStorage) (db : SQLDB) :
    Except GoError Unit × SQLDB × List SQLOp :=
  match store.ID with
  | none =>
    (.error (.errorsNew
      "SQLTokenStorage.DeleteToken requires the SQLTokenStorage.TokenID to be set."), db, [])
  | some id =>
    (.ok (), ⟨db.nextId, fun k => if k = id then none else db.rows k⟩, [.deleteById id])

/-! ## Concrete fixtures (used to instantiate the theorems below) -/

/-- A sample expiry, printed as `2026-10-11 15:04:05.123 +0000 UTC`. -/
def gtSample : GoTime := ⟨2026, 10, 11, 15, 4, 5, 123000000, false, 0, 0, "UTC"⟩

/-- The token of the repository's own test: `abc`/`def`/`bearer`. -/
def tokSample : Token := ⟨"abc", "def", gtSample, "bearer"⟩

/-- A second sample token. -/
def tokSample2 : Token := ⟨"abc2", "def2", gtSample, "bearer"⟩

/-- The file configuration of the repository's own test: directory
`testtokens`, identifier `123`. -/
def storeSample : FileTokenStorage := ⟨"testtokens", some (.int 123)⟩

/-- An empty file system. -/
def fsEmpty : FS := fun _ => none

/-- A file system whose token file holds a two-field record. -/
def fsBad : FS := fun f => if f = "testtokens/123.csv" then some ["a", "b"] else none

/-- A file system whose token file holds four fields with an unparseable
expiry. -/
def fsBadTime : FS :=
  fun f => if f = "testtokens/123.csv" then some ["a", "b", "nope", "d"] else none

/-- An empty database whose next generated identifier is `1`. -/
def dbSample : SQLDB := ⟨1, fun _ => none⟩

/-! ## Arithmetic of digit formatting and scanning -/

theorem bindSome {α β : Type} (a : α) (f : α → Option β) : (some a).bind f = f a := rfl

theorem digCh_isDig : ∀ d : Nat, d < 10 → isDig (digCh d) = true := by decide

theorem digVal_digCh : ∀ d : Nat, d < 10 → digVal (digCh d) = d := by decide

theorem padDigits_length : ∀ (w n : Nat), (padDigits w n).length = w := by
  intro w
  induction w with
  | zero => intro n; rfl
  | succ w ih => intro n; simp [padDigits, ih]

theorem padDigits_all_isDig :
    ∀ (w n : Nat), n < 10 ^ w → ∀ c ∈ padDigits w n, isDig c = true := by
  intro w
  induction w with
  | zero => intro n _ c hc; simp [padDigits] at hc
  | succ w ih =>
    intro n hn c hc
    have hpow : (0:Nat) < 10 ^ w := pow_pos (by norm_num) w
    have hd : n / 10 ^ w < 10 := by
      rw [Nat.div_lt_iff_lt_mul hpow]
      calc n < 10 ^ (w + 1) := hn
        _ = 10 * 10 ^ w := by rw [pow_succ]; ring
    rcases List.mem_cons.mp hc with h | h
    · rw [h]; exact digCh_isDig _ hd
    · exact ih (n % 10 ^ w) (Nat.mod_lt _ hpow) c h

theorem readFixed_padDigits :
    ∀ (w n acc : Nat) (rest : List Char), n < 10 ^ w →
      readFixed w acc (padDigits w n ++ rest) = some (acc * 10 ^ w + n, rest) := by
  intro w
  induction w with
  | zero =>
    intro n acc rest hn
    have hn0 : n = 0 := by omega
    subst hn0
    simp [padDigits, readFixed]
  | succ w ih =>
    intro n acc rest hn
    have hpow : (0:Nat) < 10 ^ w := pow_pos (by norm_num) w
    have hd : n / 10 ^ w < 10 := by
      rw [Nat.div_lt_iff_lt_mul hpow]
      calc n < 10 ^ (w + 1) := hn
        _ = 10 * 10 ^ w := by rw [pow_succ]; ring
    simp only [padDigits, List.cons_append, readFixed]
    rw [if_pos (digCh_isDig _ hd), digVal_digCh _ hd,
      ih (n % 10 ^ w) _ rest (Nat.mod_lt _ hpow)]
    have hdm := Nat.div_add_mod n (10 ^ w)
    congr 2
    conv_rhs => rw [← hdm]
    rw [pow_succ]
    ring

theorem readFixed_padDigits0 (w n : Nat) (rest : List Char) (hn : n < 10 ^ w) :
    readFixed w 0 (padDigits w n ++ rest) = some (n, rest) := by
  rw [readFixed_padDigits w n 0 rest hn, Nat.zero_mul, Nat.zero_add]

theorem foldlVal_padDigits :
    ∀ (w n acc : Nat), n < 10 ^ w →
      List.foldl (fun a c => a * 10 + digVal c) acc (padDigits w n) = acc * 10 ^ w + n := by
  intro w
  induction w with
  | zero =>
    intro n acc hn
    have hn0 : n = 0 := by omega
    subst hn0
    simp [padDigits]
  | succ w ih =>
    intro n acc hn
    have hpow : (0:Nat) < 10 ^ w := pow_pos (by norm_num) w
    have hd : n / 10 ^ w < 10 := by
      rw [Nat.div_lt_iff_lt_mul hpow]
      calc n < 10 ^ (w + 1) := hn
        _ = 10 * 10 ^ w := by rw [pow_succ]; ring
    simp only [padDigits, List.foldl_cons]
    rw [digVal_digCh _ hd, ih (n % 10 ^ w) _ (Nat.mod_lt _ hpow)]
    have hdm := Nat.div_add_mod n (10 ^ w)
    conv_rhs => rw [← hdm]
    rw [pow_succ]
    ring

theorem valOfDigits_padDigits (w n : Nat) (hn : n < 10 ^ w) :
    valOfDigits (padDigits w n) = n := by
  unfold valOfDigits
  rw [foldlVal_padDigits w n 0 hn, Nat.zero_mul, Nat.zero_add]

theorem readNum2Lenient_padDigits (n : Nat) (hn : n < 100) (rest : List Char) :
    readNum2Lenient (padDigits 2 n ++ rest) = some (n, rest) := by
  have h1 : n / 10 < 10 := by omega
  have h2 : n % 10 / 1 < 10 := by omega
  simp only [padDigits, pow_one, pow_zero, Nat.mod_one, List.cons_append, List.nil_append,
    readNum2Lenient]
  rw [if_pos (digCh_isDig _ h1), if_pos (digCh_isDig _ h2), digVal_digCh _ h1, digVal_digCh _ h2]
  congr 2
  omega

theorem expectChar_cons (c : Char) (rest : List Char) : expectChar c (c :: rest) = some rest := by
  simp [expectChar]

/-! ## Trailing-zero trimming and the fractional second -/

theorem valOfDigits_append_single (l : List Char) (c : Char) :
    valOfDigits (l ++ [c]) = valOfDigits l * 10 + digVal c := by
  simp [valOfDigits, List.foldl_append]

theorem dtz_append_zero (l : List Char) :
    dropTrailingZeroChars (l ++ ['0']) = dropTrailingZeroChars l := by
  simp [dropTrailingZeroChars, List.reverse_append]

theorem dtz_append_of_ne (l : List Char) (c : Char) (hc : ¬ c = '0') :
    dropTrailingZeroChars (l ++ [c]) = l ++ [c] := by
  have hb : (c == '0') = false := by simpa using hc
  simp [dropTrailingZeroChars, List.reverse_append, hb]

theorem dtz_spec :
    ∀ l : List Char, (∀ c ∈ l, isDig c = true) →
      (dropTrailingZeroChars l).length ≤ l.length ∧
      (∀ c ∈ dropTrailingZeroChars l, isDig c = true) ∧
      valOfDigits (dropTrailingZeroChars l) *
        10 ^ (l.length - (dropTrailingZeroChars l).length) = valOfDigits l := by
  intro l
  induction l using List.reverseRecOn with
  | nil => intro _; refine ⟨Nat.le_refl _, ?_, ?_⟩ <;> simp [dropTrailingZeroChars, valOfDigits]
  | append_singleton l c ih =>
    intro hall
    have hl : ∀ x ∈ l, isDig x = true := fun x hx => hall x (by simp [hx])
    by_cases hc : c = '0'
    · subst hc
      obtain ⟨ihlen, ihdig, ihval⟩ := ih hl
      rw [dtz_append_zero]
      refine ⟨by simpa using Nat.le_succ_of_le ihlen, ihdig, ?_⟩
      rw [valOfDigits_append_single]
      have hd0 : digVal '0' = 0 := by decide
      have hlen : l.length + 1 - (dropTrailingZeroChars l).length =
          (l.length - (dropTrailingZeroChars l).length) + 1 := by omega
      simp only [List.length_append, List.length_cons, List.length_nil, Nat.zero_add, hd0,
        Nat.add_zero]
      rw [hlen, pow_succ, ← Nat.mul_assoc, ihval]
    · rw [dtz_append_of_ne l c hc]
      exact ⟨Nat.le_refl _, hall, by simp⟩

theorem takeWhile_append_all {p : Char → Bool} :
    ∀ (l : List Char), (∀ c ∈ l, p c = true) → ∀ (x : Char) (rest : List Char), p x = false →
      (l ++ x :: rest).takeWhile p = l ∧ (l ++ x :: rest).dropWhile p = x :: rest := by
  intro l
  induction l with
  | nil => intro _ x rest hx; simp [List.takeWhile_cons, List.dropWhile_cons, hx]
  | cons c l ih =>
    intro hall x rest hx
    have hc : p c = true := hall c (by simp)
    have := ih (fun a ha => hall a (by simp [ha])) x rest hx
    simp [List.takeWhile_cons, List.dropWhile_cons, hc, hx, this.1, this.2]

theorem isDig_space : isDig ' ' = false := by decide

theorem parseFrac_fracChars (n : Nat) (hn : n < 1000000000) (rest : List Char) :
    parseFrac (fracChars n ++ ' ' :: rest) = some (n, ' ' :: rest) := by
  by_cases h0 : n = 0
  · subst h0
    simp only [fracChars, if_pos rfl, List.nil_append]
    rfl
  · have hdig : ∀ c ∈ padDigits 9 n, isDig c = true :=
      padDigits_all_isDig 9 n (by norm_num; omega)
    obtain ⟨hlen, hdigs, hval⟩ := dtz_spec (padDigits 9 n) hdig
    rw [padDigits_length] at hlen
    rw [valOfDigits_padDigits 9 n (by norm_num; omega), padDigits_length] at hval
    set ds := dropTrailingZeroChars (padDigits 9 n) with hds
    have hne : ds ≠ [] := by
      intro he
      rw [he] at hval
      simp [valOfDigits] at hval
      omega
    obtain ⟨d, ds', hcons⟩ := List.exists_cons_of_ne_nil hne
    have htake := takeWhile_append_all (p := isDig) ds hdigs ' ' rest isDig_space
    have hd : isDig d = true := hdigs d (by rw [hcons]; simp)
    have hlen' : (d :: ds').length ≤ 9 := by rw [← hcons]; exact hlen
    simp only [fracChars, if_neg h0, List.cons_append]
    rw [← hds]
    rw [hcons] at htake ⊢
    simp only [List.cons_append] at htake
    simp only [List.cons_append, parseFrac]
    rw [if_pos hd, htake.1, htake.2, if_pos hlen']
    rw [← hcons, hval]

/-! ## Sign, zone and the sub-parsers on canonical output -/

theorem parseSign_if (b : Bool) (rest : List Char) :
    parseSign ((if b then '-' else '+') :: rest) = some (b, rest) := by
  cases b <;> simp [parseSign]

theorem stringMk_toList (s : String) : String.mk s.toList = s := rfl

theorem parseZone_of_consumesAll (cs : List Char) (h : zoneConsumesAll cs = true) :
    parseZone cs = some (String.mk cs, []) := by
  unfold zoneConsumesAll at h
  unfold parseZone
  by_cases hutc : cs.take 3 = ['U', 'T', 'C']
  · rw [if_pos hutc] at h ⊢
    have hlen : cs.length = 3 := by simpa using h
    rw [← hlen, List.take_length, List.drop_length]
  · rw [if_neg hutc] at h ⊢
    cases hz : parseTimeZoneLen cs with
    | none => rw [hz] at h; simp at h
    | some n =>
      rw [hz] at h
      have hlen : n = cs.length := by simpa using h
      subst hlen
      simp [List.take_length, List.drop_length]

theorem parseYMD_chars (y m d : Nat) (rest : List Char)
    (hy : y < 10000) (hm1 : 1 ≤ m) (hm2 : m ≤ 12) (hd : d < 100) :
    parseYMD (padDigits 4 y ++ '-' :: (padDigits 2 m ++ '-' :: (padDigits 2 d ++ rest))) =
      some (y, m, d, rest) := by
  unfold parseYMD
  rw [readFixed_padDigits0 4 y _ (by norm_num; omega)]
  simp only [bindSome]
  rw [expectChar_cons]
  simp only [bindSome]
  rw [readFixed_padDigits0 2 m _ (by norm_num; omega)]
  simp only [bindSome]
  rw [if_neg (by omega)]
  rw [expectChar_cons]
  simp only [bindSome]
  rw [readFixed_padDigits0 2 d _ (by norm_num; omega)]
  simp only [bindSome]

theorem parseHMS_chars (h mi s : Nat) (rest : List Char)
    (hh : h ≤ 23) (hmi : mi ≤ 59) (hs : s ≤ 59) :
    parseHMS (' ' :: (padDigits 2 h ++ ':' :: (padDigits 2 mi ++ ':' :: (padDigits 2 s ++ rest)))) =
      some (h, mi, s, rest) := by
  unfold parseHMS
  rw [expectChar_cons]
  simp only [bindSome]
  rw [readNum2Lenient_padDigits h (by omega)]
  simp only [bindSome]
  rw [if_neg (by omega)]
  rw [expectChar_cons]
  simp only [bindSome]
  rw [readFixed_padDigits0 2 mi _ (by norm_num; omega)]
  simp only [bindSome]
  rw [if_neg (by omega)]
  rw [expectChar_cons]
  simp only [bindSome]
  rw [readFixed_padDigits0 2 s _ (by norm_num; omega)]
  simp only [bindSome]
  rw [if_neg (by omega)]

theorem parseOffsetZone_chars (b : Bool) (oh om : Nat) (zs : List Char)
    (hoh : oh ≤ 99) (hom : om ≤ 99) (hz : zoneConsumesAll zs = true) :
    parseOffsetZone
        (' ' :: ((if b then '-' else '+') :: (padDigits 2 oh ++ (padDigits 2 om ++ ' ' :: zs)))) =
      some (b, oh, om, String.mk zs, []) := by
  unfold parseOffsetZone
  rw [expectChar_cons]
  simp only [bindSome]
  rw [parseSign_if]
  simp only [bindSome]
  rw [readFixed_padDigits0 2 oh _ (by norm_num; omega)]
  simp only [bindSome]
  rw [readFixed_padDigits0 2 om _ (by norm_num; omega)]
  simp only [bindSome]
  rw [expectChar_cons]
  simp only [bindSome]
  rw [parseZone_of_consumesAll zs hz]
  simp only [bindSome]

theorem daysIn_le (m y : Nat) : daysIn m y ≤ 31 := by
  unfold daysIn
  split_ifs <;> omega

/-- Round trip of the time layer: `time.Parse` recovers exactly the time
whose `String()` was written, for every well-formed time value. -/
theorem goTimeParseChars_goTimeChars (t : GoTime) (h : ValidGoTime t) :
    goTimeParseChars (goTimeChars t) = some t := by
  obtain ⟨hy, hm1, hm2, hd1, hd2, hh, hmi, hs, hns, hoh, hom, hz⟩ := h
  have hshape : goTimeChars t =
      padDigits 4 t.year ++ '-' :: (padDigits 2 t.month ++ '-' :: (padDigits 2 t.day ++
        ' ' :: (padDigits 2 t.hour ++ ':' :: (padDigits 2 t.minute ++ ':' ::
        (padDigits 2 t.second ++ (fracChars t.nsec ++ ' ' ::
        ((if t.offNeg then '-' else '+') :: (padDigits 2 t.offH ++
        (padDigits 2 t.offM ++ ' ' :: t.zone.toList))))))))) := by
    simp [goTimeChars, List.append_assoc]
  unfold goTimeParseChars
  rw [hshape]
  rw [parseYMD_chars t.year t.month t.day _ hy hm1 hm2
    (by have := daysIn_le t.month t.year; omega)]
  simp only [bindSome]
  rw [parseHMS_chars t.hour t.minute t.second _ hh hmi hs]
  simp only [bindSome]
  rw [parseFrac_fracChars t.nsec hns]
  simp only [bindSome]
  rw [parseOffsetZone_chars t.offNeg t.offH t.offM _ hoh hom hz]
  simp only [bindSome]
  simp only [if_true]
  rw [if_neg (by omega), stringMk_toList]

theorem toList_mk (l : List Char) : (String.mk l).toList = l := rfl

/-- Round trip of the time layer on strings. -/
theorem goTimeParse_goTimeString (t : GoTime) (h : ValidGoTime t) :
    goTimeParse (goTimeString t) = .ok t := by
  unfold goTimeParse goTimeString
  rw [toList_mk, goTimeParseChars_goTimeChars t h]

/-! ## The claims -/

/-- C1: for every valid configuration (non-empty `StoragePath`, set
identifier) and every token record, `StoreToken` followed by `RestoreToken`
on the file backend succeeds and returns a record whose `access_token`,
`refresh_token`, `expiry` and `token_type` equal those of the record stored,
the expiry being serialized with the layout
`2006-01-02 15:04:05.999999999 -0700 MST` and parsed back with the same
layout. -/
theorem C1_file_store_restore_roundtrip (store : FileTokenStorage) (fs : FS) (token : Token)
    (hpath : store.StoragePath ≠ "") (hid : store.TokenId ≠ none)
    (hidstr : fmtSprint store.TokenId ≠ "") (hexp : ValidGoTime token.Expiry) :
    (store.StoreToken fs token).1 = .ok () ∧
    store.RestoreToken (store.StoreToken fs token).2 = .ok token := by
  have hstore : store.StoreToken fs token =
      (.ok (), fun f =>
        if f = pathJoin store.StoragePath (fmtSprint store.TokenId ++ ".csv") then
          some [token.AccessToken, token.RefreshToken, goTimeString token.Expiry,
                token.TokenType]
        else fs f) := by
    unfold FileTokenStorage.StoreToken
    rw [if_neg hpath]
    dsimp only
    rw [if_neg (not_or.mpr ⟨hid, hidstr⟩)]
  refine ⟨by rw [hstore], ?_⟩
  rw [hstore]
  unfold FileTokenStorage.RestoreToken
  rw [if_neg hpath]
  dsimp only
  rw [if_neg (not_or.mpr ⟨hid, hidstr⟩), if_pos rfl]
  dsimp only [List.length_cons, List.length_nil, List.getD]
  rw [if_neg (by omega)]
  dsimp only [List.getD, List.get?]
  simp only [Option.getD_some]
  rw [goTimeParse_goTimeString token.Expiry hexp]

/-- C1 witness: the concrete round trip of the repository's own test data. -/
theorem C1_witness :
    (storeSample.StoreToken fsEmpty tokSample).1 = .ok () ∧
    storeSample.RestoreToken (storeSample.StoreToken fsEmpty tokSample).2 = .ok tokSample :=
  C1_file_store_restore_roundtrip storeSample fsEmpty tokSample (by decide) (by decide)
    (by decide) (by decide)

/-- C2: `Config.Exchange` delegates to the underlying OAuth2 exchange; a
failed exchange returns `(nil, error)`; a successful exchange is followed by
`Storage.StoreToken` on the obtained token, whose failure also yields
`(nil, error)` even though a valid token was obtained; only when both steps
succeed is the token returned with a nil error. -/
theorem C2_config_exchange_delegates {σ : Type} (exchange : Except GoError Token)
    (storeToken : Token → σ → Except GoError Unit × σ) (s : σ) :
    (∀ e, exchange = .error e →
      Config.Exchange exchange storeToken s = (.error e, s)) ∧
    (∀ t e s', exchange = .ok t → storeToken t s = (.error e, s') →
      Config.Exchange exchange storeToken s = (.error e, s')) ∧
    (∀ t s', exchange = .ok t → storeToken t s = (.ok (), s') →
      Config.Exchange exchange storeToken s = (.ok t, s')) := by
  refine ⟨fun e he => ?_, fun t e s' ht hs => ?_, fun t s' ht hs => ?_⟩
  · rw [he]; rfl
  · rw [ht]; unfold Config.Exchange; dsimp only; rw [hs]
  · rw [ht]; unfold Config.Exchange; dsimp only; rw [hs]

/-- C2 witness: a concrete successful exchange followed by a successful
store over a counting state. -/
theorem C2_witness :
    Config.Exchange (σ := Nat) (.ok tokSample) (fun _ n => (.ok (), n + 1)) 0 =
      (.ok tokSample, 1) :=
  (C2_config_exchange_delegates (σ := Nat) (.ok tokSample) (fun _ n => (.ok (), n + 1)) 0).2.2
    tokSample 1 rfl rfl

/-- C3: `TokenStorageSource.Token` calls the underlying source's `Token`; if
that call fails it returns `(nil, error)` without invoking `StoreToken` (the
state — in particular any previously persisted record — is unchanged, for
every possible backend); if it succeeds it persists the result via
`Storage.StoreToken` before returning it, and a store failure yields
`(nil, error)`. -/
theorem C3_token_source_interceptor {σ : Type} (sourceToken : Except GoError Token)
    (storeToken : Token → σ → Except GoError Unit × σ) (s : σ) :
    (∀ e, sourceToken = .error e →
      TokenStorageSource.Token sourceToken storeToken s = (.error e, s)) ∧
    (∀ t e s', sourceToken = .ok t → storeToken t s = (.error e, s') →
      TokenStorageSource.Token sourceToken storeToken s = (.error e, s')) ∧
    (∀ t s', sourceToken = .ok t → storeToken t s = (.ok (), s') →
      TokenStorageSource.Token sourceToken storeToken s = (.ok t, s')) := by
  refine ⟨fun e he => ?_, fun t e s' ht hs => ?_, fun t s' ht hs => ?_⟩
  · rw [he]; rfl
  · rw [ht]; unfold TokenStorageSource.Token; dsimp only; rw [hs]
  · rw [ht]; unfold TokenStorageSource.Token; dsimp only; rw [hs]

/-- C3 witness: a failing source propagates its error through the
interceptor over the real file backend, leaving the file system — hence the
previously persisted record — unchanged. -/
theorem C3_witness :
    TokenStorageSource.Token (σ := FS) (.error (.errorsNew "oauth2: server error"))
      (fun tk fs => storeSample.StoreToken fs tk) fsEmpty =
      (.error (.errorsNew "oauth2: server error"), fsEmpty) :=
  (C3_token_source_interceptor (σ := FS) (.error (.errorsNew "oauth2: server error"))
    (fun tk fs => storeSample.StoreToken fs tk) fsEmpty).1 (.errorsNew "oauth2: server error") rfl

/-- C4: on the file backend `StoreToken`, `RestoreToken` and `DeleteToken`
each fail with the configuration error `StoragePath not set` when
`StoragePath` is empty, and `StoreToken`/`RestoreToken` fail with the
distinct configuration error `TokenId not set` when the identifier is unset
while `StoragePath` is configured. -/
theorem C4_file_config_errors (store : FileTokenStorage) (fs : FS) (token : Token) :
    (store.StoragePath = "" →
      (store.StoreToken fs token).1 =
        .error (.errorsNew "Cannot store token: StoragePath not set.") ∧
      store.RestoreToken fs =
        .error (.errorsNew "Cannot restore token: StoragePath not set.") ∧
      (store.DeleteToken fs).1 =
        .error (.errorsNew "Cannot delete token: StoragePath not set.")) ∧
    (store.StoragePath ≠ "" →
      store.TokenId = none ∨ fmtSprint store.TokenId = "" →
      (store.StoreToken fs token).1 =
        .error (.errorsNew "Cannot store token: TokenId not set.") ∧
      store.RestoreToken fs =
        .error (.errorsNew "Cannot restore token: TokenId not set.")) := by
  constructor
  · intro h
    refine ⟨?_, ?_, ?_⟩
    · unfold FileTokenStorage.StoreToken
      rw [if_pos h]
    · unfold FileTokenStorage.RestoreToken
      rw [if_pos h]
    · unfold FileTokenStorage.DeleteToken
      rw [if_pos h]
  · intro h1 h2
    refine ⟨?_, ?_⟩
    · unfold FileTokenStorage.StoreToken
      rw [if_neg h1]
      dsimp only
      rw [if_pos h2]
    · unfold FileTokenStorage.RestoreToken
      rw [if_neg h1]
      dsimp only
      rw [if_pos h2]

/-- C4 witness: the three `StoragePath` errors at an unconfigured store, and
the two `TokenId` errors at a store with only the directory set. -/
theorem C4_witness :
    ((FileTokenStorage.StoreToken ⟨"", none⟩ fsEmpty tokSample).1 =
        .error (.errorsNew "Cannot store token: StoragePath not set.") ∧
      FileTokenStorage.RestoreToken ⟨"", none⟩ fsEmpty =
        .error (.errorsNew "Cannot restore token: StoragePath not set.") ∧
      (FileTokenStorage.DeleteToken ⟨"", none⟩ fsEmpty).1 =
        .error (.errorsNew "Cannot delete token: StoragePath not set.")) ∧
    ((FileTokenStorage.StoreToken ⟨"testtokens", none⟩ fsEmpty tokSample).1 =
        .error (.errorsNew "Cannot store token: TokenId not set.") ∧
      FileTokenStorage.RestoreToken ⟨"testtokens", none⟩ fsEmpty =
        .error (.errorsNew "Cannot restore token: TokenId not set.")) :=
  ⟨(C4_file_config_errors ⟨"", none⟩ fsEmpty tokSample).1 rfl,
    (C4_file_config_errors ⟨"testtokens", none⟩ fsEmpty tokSample).2 (by decide) (Or.inl rfl)⟩

/-- C5: `SQLTokenStorage.StoreToken` with nil `ID` performs the plain
`INSERT` of the four token fields and, on success, sets the in-memory `ID`
to the database-generated identifier; a subsequent `StoreToken` with `ID`
set performs a single insert-or-replace keyed by that identifier, not a
second plain insert. -/
theorem C5_sql_insert_then_upsert (db : SQLDB) (t1 t2 : Token) :
    (SQLTokenStorage.StoreToken ⟨none⟩ db none none t1).result = .ok () ∧
    (SQLTokenStorage.StoreToken ⟨none⟩ db none none t1).store.ID = some (.int db.nextId) ∧
    (SQLTokenStorage.StoreToken ⟨none⟩ db none none t1).ops = [.insertAutoId] ∧
    (SQLTokenStorage.StoreToken ⟨none⟩ db none none t1).db.rows (.int db.nextId) = some t1 ∧
    (SQLTokenStorage.StoreToken (SQLTokenStorage.StoreToken ⟨none⟩ db none none t1).store
        (SQLTokenStorage.StoreToken ⟨none⟩ db none none t1).db none none t2).ops =
      [.insertOrReplace (.int db.nextId)] := by
  refine ⟨rfl, rfl, rfl, ?_, rfl⟩
  unfold SQLTokenStorage.StoreToken
  simp

/-- C6: `SQLTokenStorage.RestoreToken` with nil `ID` returns a configuration
error and executes no statement; the query path (a single `SELECT` by
identifier) is reachable only when `ID` is set. -/
theorem C6_sql_restore_requires_id (db : SQLDB) :
    (SQLTokenStorage.RestoreToken ⟨none⟩ db).1 = .error (.errorsNew
      "SQLTokenStorage.RestoreToken requires the SQLTokenStorage.TokenID to be set.") ∧
    (SQLTokenStorage.RestoreToken ⟨none⟩ db).2 = [] ∧
    ∀ id : GoVal, (SQLTokenStorage.RestoreToken ⟨some id⟩ db).2 = [.selectById id] := by
  refine ⟨rfl, rfl, fun id => ?_⟩
  unfold SQLTokenStorage.RestoreToken
  dsimp only
  cases db.rows id <;> rfl

/-- C7: on the file backend, `RestoreToken` parses exactly one record from
the file; a record with fewer than four fields fails with the malformed-data
error, and a third (expiry) field that does not parse under the exact layout
used by `StoreToken` fails with the parse error; in either case no token is
returned. -/
theorem C7_file_restore_malformed (store : FileTokenStorage) (fs : FS) (rec : List String)
    (hpath : store.StoragePath ≠ "") (hid : store.TokenId ≠ none)
    (hidstr : fmtSprint store.TokenId ≠ "")
    (hfile : fs (pathJoin store.StoragePath (fmtSprint store.TokenId ++ ".csv")) = some rec) :
    (rec.length < 4 →
      store.RestoreToken fs =
        .error (.errorsNew "Cannot restore token: File does not contain all fields.")) ∧
    (∀ e, 4 ≤ rec.length → goTimeParse (rec.getD 2 "") = .error e →
      store.RestoreToken fs = .error e) := by
  have hform : store.RestoreToken fs =
      (if rec.length < 4 then
        .error (.errorsNew "Cannot restore token: File does not contain all fields.")
      else
        match goTimeParse (rec.getD 2 "") with
        | .error e => .error e
        | .ok expiry =>
          .ok { AccessToken := rec.getD 0 "", RefreshToken := rec.getD 1 "",
                Expiry := expiry, TokenType := rec.getD 3 "" }) := by
    unfold FileTokenStorage.RestoreToken
    rw [if_neg hpath]
    dsimp only
    rw [if_neg (not_or.mpr ⟨hid, hidstr⟩), hfile]
  refine ⟨fun hlen => ?_, fun e h4 hparse => ?_⟩
  · rw [hform, if_pos hlen]
  · rw [hform, if_neg (by omega), hparse]

/-- C7 witness: a two-field record yields the malformed-data error, and a
four-field record with unparseable expiry yields the parse error. -/
theorem C7_witness :
    storeSample.RestoreToken fsBad =
      .error (.errorsNew "Cannot restore token: File does not contain all fields.") ∧
    storeSample.RestoreToken fsBadTime = .error (.timeParseError "nope") :=
  ⟨(C7_file_restore_malformed storeSample fsBad ["a", "b"] (by decide) (by decide)
      (by decide) rfl).1 (by decide),
    (C7_file_restore_malformed storeSample fsBadTime ["a", "b", "nope", "d"] (by decide)
      (by decide) (by decide) rfl).2 (.timeParseError "nope") (by decide) rfl⟩

theorem file_store_fail_path (store : FileTokenStorage) (fs : FS) (token : Token)
    (h1 : store.StoragePath = "") :
    store.StoreToken fs token =
      (.error (.errorsNew "Cannot store token: StoragePath not set."), fs) := by
  unfold FileTokenStorage.StoreToken
  rw [if_pos h1]

theorem file_store_fail_id (store : FileTokenStorage) (fs : FS) (token : Token)
    (h1 : ¬ store.StoragePath = "")
    (h2 : store.TokenId = none ∨ fmtSprint store.TokenId = "") :
    store.StoreToken fs token =
      (.error (.errorsNew "Cannot store token: TokenId not set."), fs) := by
  unfold FileTokenStorage.StoreToken
  rw [if_neg h1]
  dsimp only
  rw [if_pos h2]

theorem file_store_success (store : FileTokenStorage) (fs : FS) (token : Token)
    (h1 : ¬ store.StoragePath = "")
    (h2 : ¬ (store.TokenId = none ∨ fmtSprint store.TokenId = "")) :
    store.StoreToken fs token =
      (.ok (), fun f =>
        if f = pathJoin store.StoragePath (fmtSprint store.TokenId ++ ".csv") then
          some [token.AccessToken, token.RefreshToken, goTimeString token.Expiry,
                token.TokenType]
        else fs f) := by
  unfold FileTokenStorage.StoreToken
  rw [if_neg h1]
  dsimp only
  rw [if_neg h2]

/-- C8: every store fully overwrites any prior record for the configured
identifier — on the file backend storing twice leaves exactly the state of
storing the last token, and on the SQL backend with `ID` set two upserts
leave exactly the rows of the last one — so at most one stored record exists
per identifier. -/
theorem C8_store_overwrites (store : FileTokenStorage) (fs : FS) (t1 t2 : Token) :
    (store.StoreToken ((store.StoreToken fs t1).2) t2).2 = (store.StoreToken fs t2).2 ∧
    (∀ (sql : SQLTokenStorage) (id : GoVal) (db : SQLDB), sql.ID = some id →
      (sql.StoreToken ((sql.StoreToken db none none t1).db) none none t2).db.rows =
        (sql.StoreToken db none none t2).db.rows) := by
  constructor
  · by_cases h1 : store.StoragePath = ""
    · rw [file_store_fail_path store fs t1 h1]
    · by_cases h2 : store.TokenId = none ∨ fmtSprint store.TokenId = ""
      · rw [file_store_fail_id store fs t1 h1 h2]
      · rw [file_store_success store fs t1 h1 h2]
        dsimp only
        rw [file_store_success store _ t2 h1 h2, file_store_success store fs t2 h1 h2]
        dsimp only
        funext f
        by_cases hf : f = pathJoin store.StoragePath (fmtSprint store.TokenId ++ ".csv")
        · simp [hf]
        · simp [hf]
  · intro sql id db hid
    obtain ⟨ID⟩ := sql
    dsimp only at hid
    subst hid
    unfold SQLTokenStorage.StoreToken
    dsimp only
    funext k
    by_cases hk : k = id
    · rw [if_pos hk, if_pos hk]
    · rw [if_neg hk, if_neg hk, if_neg hk]

/-- C8 witness: the overwrite law at the sample store, file system, tokens
and database. -/
theorem C8_witness :
    (storeSample.StoreToken ((storeSample.StoreToken fsEmpty tokSample).2) tokSample2).2 =
      (storeSample.StoreToken fsEmpty tokSample2).2 ∧
    (SQLTokenStorage.StoreToken ⟨some (.int 1)⟩
        ((SQLTokenStorage.StoreToken ⟨some (.int 1)⟩ dbSample none none tokSample).db)
        none none tokSample2).db.rows =
      (SQLTokenStorage.StoreToken ⟨some (.int 1)⟩ dbSample none none tokSample2).db.rows :=
  ⟨(C8_store_overwrites storeSample fsEmpty tokSample tokSample2).1,
    (C8_store_overwrites storeSample fsEmpty tokSample tokSample2).2 ⟨some (.int 1)⟩
      (.int 1) dbSample rfl⟩

/-- C9: `SQLTokenStorage.StoreToken` mutates `ID` only on the successful
nil-`ID` insert path: with `ID` set it leaves `ID` unchanged regardless of
outcome, and with nil `ID` a failing `INSERT` or a failing `LastInsertId`
leaves `ID` nil. -/
theorem C9_sql_store_id_frame (db : SQLDB) (token : Token) (e1 e2 : Option GoError) :
    (∀ id : GoVal,
      (SQLTokenStorage.StoreToken ⟨some id⟩ db e1 e2 token).store.ID = some id) ∧
    (∀ e : GoError,
      (SQLTokenStorage.StoreToken ⟨none⟩ db (some e) e2 token).store.ID = none) ∧
    (∀ e : GoError,
      (SQLTokenStorage.StoreToken ⟨none⟩ db none (some e) token).store.ID = none) := by
  refine ⟨fun id => ?_, fun e => rfl, fun e => rfl⟩
  unfold SQLTokenStorage.StoreToken
  cases e1 <;> rfl

/-- C10: on the file backend the identifier is treated as unset exactly when
`TokenId` is nil or its stringification is empty (so a non-nil printable or
numeric `TokenId` is accepted and an empty-string `TokenId` is rejected);
and when both `StoragePath` and `TokenId` are unset, `StoreToken`,
`RestoreToken` and `DeleteToken` each return their `StoragePath` error,
because the `StoragePath` check precedes the `TokenId` check. -/
theorem C10_file_identifier_unset (store : FileTokenStorage) (fs : FS) (token : Token) :
    ((store.StoreToken fs token).1 =
        .error (.errorsNew "Cannot store token: TokenId not set.") ↔
      store.StoragePath ≠ "" ∧ (store.TokenId = none ∨ fmtSprint store.TokenId = "")) ∧
    (store.StoragePath = "" → store.TokenId = none ∨ fmtSprint store.TokenId = "" →
      (store.StoreToken fs token).1 =
        .error (.errorsNew "Cannot store token: StoragePath not set.") ∧
      store.RestoreToken fs =
        .error (.errorsNew "Cannot restore token: StoragePath not set.") ∧
      (store.DeleteToken fs).1 =
        .error (.errorsNew "Cannot delete token: StoragePath not set.")) := by
  constructor
  · by_cases h1 : store.StoragePath = ""
    · have hres : (store.StoreToken fs token).1 =
          .error (.errorsNew "Cannot store token: StoragePath not set.") := by
        unfold FileTokenStorage.StoreToken
        rw [if_pos h1]
      rw [hres]
      constructor
      · intro h
        have h' : GoError.errorsNew "Cannot store token: StoragePath not set." =
            GoError.errorsNew "Cannot store token: TokenId not set." := by
          injection h
        exact absurd h' (by decide)
      · rintro ⟨ha, -⟩
        exact absurd h1 ha
    · by_cases h2 : store.TokenId = none ∨ fmtSprint store.TokenId = ""
      · have hres : (store.StoreToken fs token).1 =
            .error (.errorsNew "Cannot store token: TokenId not set.") := by
          unfold FileTokenStorage.StoreToken
          rw [if_neg h1]
          dsimp only
          rw [if_pos h2]
        rw [hres]
        simp [h1, h2]
      · have hres : (store.StoreToken fs token).1 = .ok () := by
          unfold FileTokenStorage.StoreToken
          rw [if_neg h1]
          dsimp only
          rw [if_neg h2]
        rw [hres]
        simp [h2]
  · intro h1 _
    exact (C4_file_config_errors store fs token).1 h1

/-- C10 witness: an empty-string identifier is rejected with the `TokenId`
error, and with both settings unset all three operations report the
`StoragePath` error. -/
theorem C10_witness :
    (FileTokenStorage.StoreToken ⟨"testtokens", some (.str "")⟩ fsEmpty tokSample).1 =
      .error (.errorsNew "Cannot store token: TokenId not set.") ∧
    (FileTokenStorage.StoreToken ⟨"", none⟩ fsEmpty tokSample).1 =
      .error (.errorsNew "Cannot store token: StoragePath not set.") ∧
    FileTokenStorage.RestoreToken ⟨"", none⟩ fsEmpty =
      .error (.errorsNew "Cannot restore token: StoragePath not set.") ∧
    (FileTokenStorage.DeleteToken ⟨"", none⟩ fsEmpty).1 =
      .error (.errorsNew "Cannot delete token: StoragePath not set.") :=
  ⟨(C10_file_identifier_unset ⟨"testtokens", some (.str "")⟩ fsEmpty tokSample).1.mpr
      ⟨by decide, Or.inr rfl⟩,
    (C10_file_identifier_unset ⟨"", none⟩ fsEmpty tokSample).2 rfl (Or.inl rfl)⟩

end Oauthpersist
